import Mathlib

/-!
Shallow embedding of the URL-Shortener repository (Python) in Lean 4.

The registry (`urls` table) and the click ledger (`clicks` table) are
modelled as lists of rows; every database operation is translated from
`database.py` as an explicit state-passing function
`args → DBState → result × DBState` (a SQL SELECT returns the state
unchanged).  Timestamps are modelled as `Int`; SQL `NULL` columns are
`Option`; the float `response_time_ms` and the float division in the
statistics are modelled exactly over `ℚ`.  The unused `id` autoincrement
and `password` columns (never read or written by any code path) are
omitted from the row structures.
-/

set_option maxRecDepth 20000

/-- A descending insertion step, used to model SQL `ORDER BY key DESC`.
Only membership in the result is relied on by any theorem, matching the
fact that SQL leaves the order of equal keys unspecified. -/
def insertDescBy {α : Type} (key : α → Int) (x : α) : List α → List α
  | [] => [x]
  | y :: ys => if key y ≤ key x then x :: y :: ys else y :: insertDescBy key x ys

/-- Model of SQL `ORDER BY key DESC` as an insertion sort. -/
def sortDescBy {α : Type} (key : α → Int) : List α → List α
  | [] => []
  | x :: xs => insertDescBy key x (sortDescBy key xs)

theorem mem_insertDescBy {α : Type} (key : α → Int) (x a : α) (l : List α) :
    a ∈ insertDescBy key x l ↔ a = x ∨ a ∈ l := by
  induction l with
  | nil => simp [insertDescBy]
  | cons y ys ih =>
    by_cases h : key y ≤ key x
    · simp [insertDescBy, h]
    · simp only [insertDescBy, if_neg h, List.mem_cons, ih]
      tauto

theorem mem_sortDescBy {α : Type} (key : α → Int) (a : α) (l : List α) :
    a ∈ sortDescBy key l ↔ a ∈ l := by
  induction l with
  | nil => simp [sortDescBy]
  | cons y ys ih => simp [sortDescBy, mem_insertDescBy, ih]

/-- Model of the Python membership test `needle in hay` on strings
(character-list level): returns the suffix of `hay` that starts at the
first occurrence of `needle`, or `none`. -/
def dropUntilSub (needle : List Char) : List Char → Option (List Char)
  | [] => if needle.isPrefixOf ([] : List Char) then some [] else none
  | c :: cs =>
    if needle.isPrefixOf (c :: cs) then some (c :: cs)
    else dropUntilSub needle cs

/-- Python `needle in hay` (substring containment). -/
def pyContainsSub (hay needle : List Char) : Bool :=
  (dropUntilSub needle hay).isSome

/-- Python `s.startswith(pre)`. -/
def pyStartsWith (s pre : String) : Bool :=
  pre.data.isPrefixOf s.data

/-- Python `s.isalnum()`: non-empty and all characters alphanumeric. -/
def pyIsAlnum (s : String) : Bool :=
  !s.data.isEmpty && s.data.all Char.isAlphanum

/-- Python `s.lower()` (ASCII case folding, character by character). -/
def pyToLower (s : String) : String :=
  ⟨s.data.map Char.toLower⟩

/-- Python `path.lstrip('/')`. -/
def pyLstripSlash (s : String) : String :=
  ⟨s.data.dropWhile (fun ch => ch == '/')⟩

/-- Python `path.split('?')[0]` (the source only applies it when `'?' in
path`, which yields the same result in both cases). -/
def pySplitQueryHead (s : String) : String :=
  ⟨s.data.takeWhile (fun ch => ch != '?')⟩

/-! Configuration constants from `config.py`. -/

def SHORT_CODE_LENGTH : Nat := 6

def SHORT_CODE_CHARS : String :=
  "abcdefghijklmnopqrstuvwxyzABCDEFGHIJKLMNOPQRSTUVWXYZ0123456789"

def MAX_CUSTOM_LENGTH : Nat := 50

def CHECK_URL_ACTIVE : Bool := true

def TRACK_IP : Bool := true

def TRACK_LOCATION : Bool := true

def TRACK_BROWSER : Bool := true

def CUSTOM_DOMAIN : String := "http://localhost:8080"

/-! The `ERROR_MESSAGES` dictionary from `config.py` (the entries the
core code paths use). -/

def EM_invalid_url : String :=
  "Invalid URL format. Please enter a valid URL starting with http:// or https://"

def EM_url_inactive : String := "URL appears to be inactive or unreachable"

def EM_blacklisted : String := "This URL is blacklisted and cannot be shortened"

def EM_custom_taken : String := "This custom short code is already taken"

def EM_database_error : String := "Database error occurred. Please try again"

def EM_not_found : String := "Shortened URL not found"

def EM_dns_error : String := "DNS resolution failed for this URL"

/-! Data model: rows of the `urls` and `clicks` tables. -/

/-- A row of the `urls` table (`database.py`, `create_tables`).  The
autoincrement `id` and the never-used `password` column are omitted. -/
structure UrlRow where
  short_code : String
  original_url : String
  custom : Bool
  created_at : Int
  expires_at : Option Int
  is_active : Bool
  notes : String
  tags : String
deriving DecidableEq

/-- A row of the `clicks` table.  The autoincrement `id` is omitted. -/
structure ClickRow where
  short_code : String
  clicked_at : Int
  ip_address : String
  country : String
  city : String
  browser : String
  device : String
  response_time_ms : ℚ
deriving DecidableEq

/-- The persistent state: the `urls` and `clicks` tables. -/
structure DBState where
  urls : List UrlRow
  clicks : List ClickRow
deriving DecidableEq

/-- The schema invariant `short_code TEXT UNIQUE NOT NULL`: no two rows
of the `urls` table share a short code. -/
def UniqueCodes (st : DBState) : Prop :=
  (st.urls.map (fun r => r.short_code)).Nodup

instance (st : DBState) : Decidable (UniqueCodes st) := by
  unfold UniqueCodes
  exact List.nodupDecidable _

namespace Database

/-- Model of `Database.insert_url`: `INSERT INTO urls ...`.  The `UNIQUE`
constraint on `short_code` spans every row, active or not; a duplicate
raises `sqlite3.IntegrityError`, which the source catches and turns into
`False` with the state unchanged. -/
def insert_url (now : Int) (short_code original_url : String) (custom : Bool)
    (expires_at : Option Int) (notes tags : String) (st : DBState) :
    Bool × DBState :=
  if st.urls.any (fun r => r.short_code == short_code) then
    (false, st)
  else
    (true, { st with urls := st.urls ++
      [{ short_code := short_code, original_url := original_url,
         custom := custom, created_at := now, expires_at := expires_at,
         is_active := true, notes := notes, tags := tags }] })

/-- Model of `Database.get_url`: `SELECT * FROM urls WHERE short_code = ? AND
is_active = 1`, then `fetchone`; if the row has an expiration and
`datetime.now() > expires_at` the function returns `None`.  A SELECT
leaves the state unchanged. -/
def get_url (now : Int) (short_code : String) (st : DBState) :
    Option UrlRow × DBState :=
  match st.urls.find? (fun r => r.short_code == short_code && r.is_active) with
  | none => (none, st)
  | some row =>
    match row.expires_at with
    | some e => if now > e then (none, st) else (some row, st)
    | none => (some row, st)

/-- Model of `Database.get_all_urls`: all rows (or only the active ones) ordered
by `created_at DESC`. -/
def get_all_urls (include_inactive : Bool) (st : DBState) :
    List UrlRow × DBState :=
  if include_inactive then
    (sortDescBy (fun r => r.created_at) st.urls, st)
  else
    (sortDescBy (fun r => r.created_at)
      (st.urls.filter (fun r => r.is_active)), st)

/-- Apply the supplied fields of `Database.update_url` to one row (the
SQL `SET` clause built from the non-`None` arguments). -/
def applyUpdates (original_url notes tags : Option String)
    (expires_at : Option Int) (r : UrlRow) : UrlRow :=
  { r with
    original_url := original_url.getD r.original_url,
    notes := notes.getD r.notes,
    tags := tags.getD r.tags,
    expires_at :=
      match expires_at with
      | some e => some e
      | none => r.expires_at }

/-- Model of `Database.update_url`: if no field is supplied it returns `False`;
otherwise it runs `UPDATE urls SET ... WHERE short_code = ?`, commits and
returns `True` — whether or not any row matched. -/
def update_url (short_code : String) (original_url notes tags : Option String)
    (expires_at : Option Int) (st : DBState) : Bool × DBState :=
  if original_url.isNone && notes.isNone && tags.isNone && expires_at.isNone then
    (false, st)
  else
    (true, { st with urls := st.urls.map (fun r =>
      if r.short_code == short_code then
        applyUpdates original_url notes tags expires_at r
      else r) })

/-- Model of `Database.delete_url` (soft delete): `UPDATE urls SET is_active = 0
WHERE short_code = ?`; always returns `True` on storage success. -/
def delete_url (short_code : String) (st : DBState) : Bool × DBState :=
  (true, { st with urls := st.urls.map (fun r =>
    if r.short_code == short_code then { r with is_active := false } else r) })

/-- Model of `Database.hard_delete_url`: `DELETE FROM clicks WHERE short_code = ?`
then `DELETE FROM urls WHERE short_code = ?`; always returns `True` on
storage success. -/
def hard_delete_url (short_code : String) (st : DBState) : Bool × DBState :=
  (true,
    { urls := st.urls.filter (fun r => r.short_code != short_code),
      clicks := st.clicks.filter (fun ev => ev.short_code != short_code) })

/-- Model of `Database.record_click`: append-only `INSERT INTO clicks ...`.
SQLite foreign keys are not enabled by the source (no `PRAGMA
foreign_keys`), so the insert never rejects a dangling code. -/
def record_click (now : Int) (short_code ip_address country city browser device : String)
    (response_time_ms : ℚ) (st : DBState) : Bool × DBState :=
  (true, { st with clicks := st.clicks ++
    [{ short_code := short_code, clicked_at := now, ip_address := ip_address,
       country := country, city := city, browser := browser, device := device,
       response_time_ms := response_time_ms }] })

/-- Model of `Database.get_click_count`: `SELECT COUNT(*) FROM clicks WHERE
short_code = ?`. -/
def get_click_count (short_code : String) (st : DBState) : Nat × DBState :=
  (st.clicks.countP (fun ev => ev.short_code == short_code), st)

/-- Model of `Database.get_clicks`: conjunctive filters, `ORDER BY clicked_at
DESC`, optional `LIMIT`.  The Python truthiness tests `if short_code:`,
`if start_date:`, `if limit:` make an empty string, a zero date and a
zero limit behave as absent. -/
def get_clicks (short_code : Option String) (limit : Option Nat)
    (start_date end_date : Option Int) (st : DBState) :
    List ClickRow × DBState :=
  let l1 := match short_code with
    | some s => if s ≠ "" then st.clicks.filter (fun ev => ev.short_code == s)
                else st.clicks
    | none => st.clicks
  let l2 := match start_date with
    | some d => if d ≠ 0 then l1.filter (fun ev => d ≤ ev.clicked_at) else l1
    | none => l1
  let l3 := match end_date with
    | some d => if d ≠ 0 then l2.filter (fun ev => ev.clicked_at ≤ d) else l2
    | none => l2
  let sorted := sortDescBy (fun ev => ev.clicked_at) l3
  match limit with
  | some n => if n ≠ 0 then (sorted.take n, st) else (sorted, st)
  | none => (sorted, st)

/-- First-occurrence deduplication, used to model SQL `GROUP BY`
(SQLite leaves the group order unspecified; no theorem depends on it). -/
def dedupFirst (l : List String) : List String :=
  l.foldl (fun acc x => if acc.contains x then acc else acc ++ [x]) []

/-- The `most_clicked` aggregation of `get_statistics`: `GROUP BY
short_code ORDER BY clicks DESC LIMIT 1`.  Ties are unspecified in SQL;
this model keeps the first maximal group. -/
def most_clicked_of (clicks : List ClickRow) : Option (String × Nat) :=
  let codes := dedupFirst (clicks.map (fun ev => ev.short_code))
  let counted := codes.map
    (fun c => (c, clicks.countP (fun ev => ev.short_code == c)))
  counted.foldl
    (fun best p =>
      match best with
      | none => some p
      | some q => if p.2 > q.2 then some p else some q)
    none

/-- The `AVG(response_time_ms)` aggregation: `NULL` (no rows) and a zero
average both collapse to `0` through the Python truthiness test. -/
def avg_response_time_of (clicks : List ClickRow) : ℚ :=
  if clicks.isEmpty then 0
  else (clicks.map (fun ev => ev.response_time_ms)).sum / clicks.length

/-- The `top_countries` aggregation: non-empty countries, `GROUP BY
country ORDER BY count DESC LIMIT 5` (tie order unspecified in SQL). -/
def top_countries_of (clicks : List ClickRow) : List (String × Nat) :=
  let cs := clicks.filter (fun ev => ev.country != "")
  let countries := dedupFirst (cs.map (fun ev => ev.country))
  let counted := countries.map
    (fun c => (c, cs.countP (fun ev => ev.country == c)))
  (sortDescBy (fun p => (p.2 : Int)) counted).take 5

/-- The dictionary returned by `Database.get_statistics`. -/
structure Stats where
  total_urls : Nat
  total_clicks : Nat
  avg_clicks_per_url : ℚ
  most_clicked : Option (String × Nat)
  avg_response_time_ms : ℚ
  top_countries : List (String × Nat)
deriving DecidableEq

/-- Model of `Database.get_statistics`: counts of active URLs and of all clicks,
exact average (Python float division modelled over `ℚ`), plus the
secondary aggregations. -/
def get_statistics (st : DBState) : Stats × DBState :=
  let total_urls := st.urls.countP (fun r => r.is_active)
  let total_clicks := st.clicks.length
  ({ total_urls := total_urls,
     total_clicks := total_clicks,
     avg_clicks_per_url :=
       if total_urls > 0 then (total_clicks : ℚ) / (total_urls : ℚ) else 0,
     most_clicked := most_clicked_of st.clicks,
     avg_response_time_ms := avg_response_time_of st.clicks,
     top_countries := top_countries_of st.clicks }, st)

end Database

namespace Utils

/-- Model of `utils.get_domain_from_url`: `urlparse(url).netloc`, modelled for
absolute URLs: the segment after the first `"://"` up to the next `'/'`,
`'?'` or `'#'`; a URL without `"://"` has an empty netloc (every caller
in the core passes validated absolute URLs). -/
def get_domain_from_url (url : String) : String :=
  match dropUntilSub "://".data url.data with
  | some suffix =>
    ⟨(suffix.drop 3).takeWhile
      (fun ch => ch != '/' && ch != '?' && ch != '#')⟩
  | none => ""

/-- The default blacklist hard-coded inside `utils.is_blacklisted`
(distinct from `config.BLACKLISTED_DOMAINS`, which that function never
reads when called with `blacklist=None`). -/
def default_blacklist : List String :=
  ["bit.ly", "malware.com", "phishing.com", "spam.com"]

/-- Model of `utils.is_blacklisted`: case-insensitive substring match of each
blocked entry against the URL's domain. -/
def is_blacklisted (url : String) (blacklist : Option (List String)) : Bool :=
  let bl := blacklist.getD default_blacklist
  let domain := get_domain_from_url url
  bl.any (fun blocked =>
    pyContainsSub (pyToLower domain).data (pyToLower blocked).data)

/-- The dictionary returned by `utils.validate_url` (every branch of the
source returns a non-empty dict). -/
structure ValidationResult where
  valid : Bool
  msg : String
deriving DecidableEq

/-- Model of `utils.validate_url`.  The `requests.head` probe is an external
collaborator, modelled by the oracle `headOk`. -/
def validate_url (headOk : Bool) (url : String) : ValidationResult :=
  if url = "" then { valid := false, msg := "URL cannot be empty" }
  else
    let normalized :=
      if pyStartsWith url "http://" || pyStartsWith url "https://" then url
      else "https://" ++ url
    if get_domain_from_url normalized = "" then
      { valid := false, msg := "Invalid domain name" }
    else if pyContainsSub (get_domain_from_url normalized).data "localhost".data
        || pyContainsSub (get_domain_from_url normalized).data "127.0.0.1".data then
      { valid := false, msg := "Local URLs are not allowed" }
    else if !headOk then
      { valid := false, msg := "URL is not accessible" }
    else
      { valid := true, msg := "URL is valid" }

/-- Python truthiness of the dict returned by `validate_url`: every
branch of the source returns a dict literal with entries, and a
non-empty dict is truthy, so the caller's `if not validate_url(url)`
branch can never fire (the `valid` flag is never consulted). -/
def isTruthyDict (_ : ValidationResult) : Bool := true

/-- Model of `utils.check_dns_resolution`: an external DNS collaborator, modelled
by an oracle outcome. -/
def check_dns_resolution (dnsOk : Bool) (_ : String) : Bool := dnsOk

/-- Model of `utils.check_url_active`: an external reachability probe, modelled
by an oracle outcome. -/
def check_url_active (urlActive : Bool) (_ : String) : Bool := urlActive

end Utils

namespace URLShortener

/-- Model of `URLShortener.generate_short_code`: `while True` draw-and-retry.
`random.choices(config.SHORT_CODE_CHARS, k=config.SHORT_CODE_LENGTH)` is
modelled as a stream of candidate draws consumed from index `i`; the
loop exits with the first candidate for which `self.db.get_url(code)` is
`None`.  The source has no retry bound, so the loop is given explicit
fuel: `none` means the loop has not produced a result within `fuel`
iterations. -/
def generate_short_code (fuel : Nat) (stream : Nat → String) (i : Nat)
    (now : Int) (st : DBState) : Option String :=
  match fuel with
  | 0 => none
  | f + 1 =>
    let code := stream i
    match (Database.get_url now code st).1 with
    | none => some code
    | some _ => generate_short_code f stream (i + 1) now st

/-- A legal output of `random.choices(SHORT_CODE_CHARS,
k=SHORT_CODE_LENGTH)`: a string of exactly `SHORT_CODE_LENGTH`
characters drawn from `SHORT_CODE_CHARS`. -/
def ValidDraw (s : String) : Prop :=
  s.data.length = SHORT_CODE_LENGTH ∧ ∀ ch ∈ s.data, ch ∈ SHORT_CODE_CHARS.data

instance (s : String) : Decidable (ValidDraw s) := by
  unfold ValidDraw
  infer_instance

/-- The result dictionary of `URLShortener.shorten_url`. -/
structure ShortenResult where
  success : Bool
  short_code : Option String
  shortened_url : Option String
  error : Option String
deriving DecidableEq

/-- Error result helper: the source mutates only the `error` key of the
initial result dictionary. -/
def errResult (msg : String) : ShortenResult :=
  { success := false, short_code := none, shortened_url := none,
    error := some msg }

/-- Model of `URLShortener.shorten_url`.  External collaborators (the
`requests.head` probe inside `validate_url`, DNS resolution, and the
reachability check) are oracle parameters; the random draws of the
generator are the `stream`/`fuel` parameters.  The overall result is
`none` only when the code generator's retry loop exhausts its fuel,
modelling its potential non-termination. -/
def shorten_url (now : Int) (headOk dnsOk urlActive : Bool) (fuel : Nat)
    (stream : Nat → String) (original_url : String)
    (custom_code : Option String) (expires_days : Option Int)
    (notes tags : String) (validate : Bool) (st : DBState) :
    Option (ShortenResult × DBState) :=
  -- `if not validate_url(original_url)`: dict truthiness, never fires
  if !(Utils.isTruthyDict (Utils.validate_url headOk original_url)) then
    some (errResult EM_invalid_url, st)
  else if Utils.is_blacklisted original_url none then
    some (errResult EM_blacklisted, st)
  else if validate && CHECK_URL_ACTIVE
      && !(Utils.check_dns_resolution dnsOk original_url) then
    some (errResult EM_dns_error, st)
  else if validate && CHECK_URL_ACTIVE
      && !(Utils.check_url_active urlActive original_url) then
    some (errResult EM_url_inactive, st)
  else
    let picked : Option (String × Bool) :=
      match custom_code with
      | some cc => some (cc, true)
      | none =>
        match generate_short_code fuel stream 0 now st with
        | some c => some (c, false)
        | none => none
    match custom_code with
    | some cc =>
      if cc.length > MAX_CUSTOM_LENGTH then
        some (errResult ("Custom code too long (max "
          ++ toString MAX_CUSTOM_LENGTH ++ " characters)"), st)
      else if !(pyIsAlnum cc) then
        some (errResult "Custom code must be alphanumeric", st)
      else if ((Database.get_url now cc st).1).isSome then
        some (errResult EM_custom_taken, st)
      else
        finish now cc true original_url expires_days notes tags st
    | none =>
      match picked with
      | some (c, _) => finish now c false original_url expires_days notes tags st
      | none => none
where
  /-- The tail of `shorten_url` after a short code is chosen: compute
  `expires_at` (Python `if expires_days:` treats `0` as absent), insert,
  and build the result dictionary. -/
  finish (now : Int) (short_code : String) (is_custom : Bool)
      (original_url : String) (expires_days : Option Int)
      (notes tags : String) (st : DBState) :
      Option (ShortenResult × DBState) :=
    let expires_at : Option Int :=
      match expires_days with
      | some d => if d ≠ 0 then some (now + d * 86400) else none
      | none => none
    let res := Database.insert_url now short_code original_url is_custom
      expires_at notes tags st
    if res.1 then
      some ({ success := true, short_code := some short_code,
              shortened_url := some (CUSTOM_DOMAIN ++ "/" ++ short_code),
              error := none }, res.2)
    else
      some (errResult EM_database_error, res.2)

end URLShortener

namespace Server

/-- The standardized dictionary returned by `utils.get_ip_info` (the
fields the redirect handler reads). -/
structure GeoInfo where
  country : String
  city : String
deriving DecidableEq

/-- The dictionary returned by `utils.parse_user_agent` (the fields the
redirect handler reads). -/
structure UAInfo where
  browser_family : String
  browser_version : String
  device_family : String
deriving DecidableEq

/-- The observable HTTP response of the handler: the status code sent by
`send_response`/`send_error`, the `Location` header when one is emitted,
and the error message of `send_error`. -/
structure Response where
  status : Nat
  location : Option String
  message : Option String
deriving DecidableEq

/-- Model of `URLRedirectHandler.handle_redirect`.  The geolocation and
user-agent collaborators are oracle parameters (`none` models a failed
or disabled lookup); `elapsed_ms` is the measured
`(time.time() - start_time) * 1000`.  On a miss: `send_error(404,
ERROR_MESSAGES['not_found'])` and no ledger write.  On a hit: derive the
metadata strings, `record_click`, then `send_response(301)` with a
`Location` header equal to the stored `original_url`. -/
def handle_redirect (now : Int) (elapsed_ms : ℚ) (geo : Option GeoInfo)
    (ua : Option UAInfo) (ip : String) (short_code : String) (st : DBState) :
    Response × DBState :=
  let looked := Database.get_url now short_code st
  match looked.1 with
  | none => ({ status := 404, location := none, message := some EM_not_found }, looked.2)
  | some url_data =>
    let country := if TRACK_LOCATION then
      (match geo with | some g => g.country.trim | none => "") else ""
    let city := if TRACK_LOCATION then
      (match geo with | some g => g.city.trim | none => "") else ""
    let browser := if TRACK_BROWSER then
      (match ua with
       | some u => (u.browser_family ++ " " ++ u.browser_version).trim
       | none => "") else ""
    let device := if TRACK_BROWSER then
      (match ua with | some u => u.device_family.trim | none => "") else ""
    let recorded := Database.record_click now short_code
      (if TRACK_IP then ip else "") country city browser device
      elapsed_ms looked.2
    ({ status := 301, location := some url_data.original_url, message := none },
     recorded.2)

/-- Model of `URLRedirectHandler.handle_api`: `api/stats` serves the statistics
JSON with status 200; any other `api/...` path is a 404. -/
def handle_api (path : String) (st : DBState) : Response × DBState :=
  let endpoint := path.drop 4
  if endpoint = "stats" then
    let stats := Database.get_statistics st
    ({ status := 200, location := none, message := none }, stats.2)
  else
    ({ status := 404, location := none, message := some "API endpoint not found" }, st)

/-- Model of `URLRedirectHandler.do_GET`: strip leading slashes and the query
string, serve the home page for the empty path or `index.html`, route
`api/...` to the API handler, and treat everything else as a short code
to redirect. -/
def do_GET (now : Int) (elapsed_ms : ℚ) (geo : Option GeoInfo)
    (ua : Option UAInfo) (ip : String) (rawPath : String) (st : DBState) :
    Response × DBState :=
  let path := pySplitQueryHead (pyLstripSlash rawPath)
  if path = "" ∨ path = "index.html" then
    ({ status := 200, location := none, message := none }, st)
  else if pyStartsWith path "api/" then
    handle_api path st
  else
    handle_redirect now elapsed_ms geo ua ip path st

end Server

/-! Saturation of the code space, used to settle the generator's
termination claim.  `codesOfLen n` enumerates every length-`n` string
over `SHORT_CODE_CHARS`; `saturatedState` holds one active, unexpiring
registry row for each of the `62 ^ 6` possible generated codes, so every
candidate the generator can draw is already taken. -/

def codesOfLen : Nat → List (List Char)
  | 0 => [[]]
  | n + 1 =>
    SHORT_CODE_CHARS.data.flatMap
      (fun ch => (codesOfLen n).map (fun cs => ch :: cs))

/-- One active, unexpiring registry row for a given code. -/
def saturatedRow (cs : List Char) : UrlRow :=
  { short_code := ⟨cs⟩, original_url := "https://example.com",
    custom := false, created_at := 0, expires_at := none,
    is_active := true, notes := "", tags := "" }

/-- A registry in which every possible generated code is an active,
unexpiring ShortLink. -/
def saturatedState : DBState :=
  { urls := (codesOfLen SHORT_CODE_LENGTH).map saturatedRow, clicks := [] }

/-- Non-termination of the `while True` generation loop, expressed over
the fuelled model: no amount of fuel makes the loop produce a result. -/
def genLoopsForever (stream : Nat → String) (now : Int) (st : DBState) : Prop :=
  ∀ fuel i, URLShortener.generate_short_code fuel stream i now st = none

/-! Helper lemmas shared by the claim theorems. -/

theorem not_mem_of_all_alphanum {l : List Char} (h : l.all Char.isAlphanum = true)
    {c : Char} (hc : Char.isAlphanum c = false) : c ∉ l := by
  intro hm
  have := List.all_eq_true.mp h c hm
  rw [hc] at this
  exact Bool.false_ne_true this

theorem dropWhile_slash_of_alphanum {l : List Char}
    (h : l.all Char.isAlphanum = true) : l.dropWhile (fun ch => ch == '/') = l := by
  cases l with
  | nil => rfl
  | cons a t =>
    have ha : Char.isAlphanum a = true := List.all_eq_true.mp h a (by simp)
    have hne : a ≠ '/' := by
      intro he
      rw [he] at ha
      exact absurd ha (by decide)
    have hb : (a == '/') = false := by
      simp [hne]
    simp [List.dropWhile, hb]

theorem takeWhile_query_of_alphanum {l : List Char}
    (h : l.all Char.isAlphanum = true) : l.takeWhile (fun ch => ch != '?') = l := by
  induction l with
  | nil => rfl
  | cons a t ih =>
    have ha : Char.isAlphanum a = true := List.all_eq_true.mp h a (by simp)
    have hne : a ≠ '?' := by
      intro he
      rw [he] at ha
      exact absurd ha (by decide)
    have ht : t.all Char.isAlphanum = true := by
      simp only [List.all_cons, Bool.and_eq_true] at h
      exact h.2
    have hb : (a != '?') = true := by
      simp [hne]
    simp [List.takeWhile, hb, ih ht]

theorem pyStartsWith_api_eq_false {s : String}
    (h : s.data.all Char.isAlphanum = true) : pyStartsWith s "api/" = false := by
  cases hb : pyStartsWith s "api/" with
  | false => rfl
  | true =>
    exfalso
    have hpre : "api/".data <+: s.data := List.isPrefixOf_iff_prefix.mp hb
    have hmem : '/' ∈ s.data := hpre.subset (by decide)
    exact not_mem_of_all_alphanum h (by decide) hmem

/-- Path normalization of `do_GET` on a request path `"/" ++ code` for a
non-empty alphanumeric code. -/
theorem path_normalizes {code : String}
    (h : code.data.all Char.isAlphanum = true) :
    pySplitQueryHead (pyLstripSlash ("/" ++ code)) = code := by
  obtain ⟨l⟩ := code
  have hdata : ("/" ++ String.mk l).data = '/' :: l := by
    rw [String.data_append]
    rfl
  unfold pyLstripSlash pySplitQueryHead
  rw [hdata]
  have h1 : List.dropWhile (fun ch => ch == '/') ('/' :: l) =
      List.dropWhile (fun ch => ch == '/') l := by
    simp [List.dropWhile]
  rw [h1, dropWhile_slash_of_alphanum h, takeWhile_query_of_alphanum h]

theorem row_eq_of_uniqueCodes {st : DBState} (hu : UniqueCodes st)
    {r r' : UrlRow} (hr : r ∈ st.urls) (hr' : r' ∈ st.urls)
    (hc : r.short_code = r'.short_code) : r = r' :=
  List.inj_on_of_nodup_map hu hr hr' hc

/-- A SELECT never changes the database state. -/
theorem get_url_snd (now : Int) (c : String) (st : DBState) :
    (Database.get_url now c st).2 = st := by
  unfold Database.get_url
  rcases hf : st.urls.find? (fun r => r.short_code == c && r.is_active) with _ | row
  · rw [hf]
  · rcases he : row.expires_at with _ | e
    · simp [hf, he]
    · by_cases hlt : now > e <;> simp [hf, he, hlt]

/-- Lookup of a stored, active, unexpired row returns exactly that row
(under the schema's code-uniqueness invariant). -/
theorem get_url_of_active_unexpired (now : Int) (st : DBState) (row : UrlRow)
    (hu : UniqueCodes st) (hmem : row ∈ st.urls) (hact : row.is_active = true)
    (hexp : ∀ e, row.expires_at = some e → ¬ now > e) :
    Database.get_url now row.short_code st = (some row, st) := by
  unfold Database.get_url
  rcases hf : st.urls.find? (fun r => r.short_code == row.short_code && r.is_active)
    with _ | r
  · exfalso
    have := List.find?_eq_none.mp hf row hmem
    simp [hact] at this
  · have hp := List.find?_some hf
    have hm := List.mem_of_find?_eq_some hf
    simp only [Bool.and_eq_true, beq_iff_eq] at hp
    have hr : r = row := row_eq_of_uniqueCodes hu hm hmem hp.1
    subst hr
    rcases he : r.expires_at with _ | e
    · simp [hf, he]
    · simp [hf, he, if_neg (hexp e he)]

theorem mem_codesOfLen (n : Nat) (cs : List Char) :
    cs ∈ codesOfLen n ↔
      cs.length = n ∧ ∀ ch ∈ cs, ch ∈ SHORT_CODE_CHARS.data := by
  induction n generalizing cs with
  | zero =>
    simp only [codesOfLen, List.mem_singleton]
    constructor
    · rintro rfl
      simp
    · rintro ⟨hlen, -⟩
      exact List.length_eq_zero.mp hlen
  | succ n ih =>
    simp only [codesOfLen, List.mem_flatMap, List.mem_map]
    constructor
    · rintro ⟨ch, hch, cs', hcs', rfl⟩
      obtain ⟨hlen, hall⟩ := (ih cs').mp hcs'
      refine ⟨by simp [hlen], ?_⟩
      intro c hc
      rcases List.mem_cons.mp hc with rfl | hc'
      · exact hch
      · exact hall c hc'
    · rintro ⟨hlen, hall⟩
      cases cs with
      | nil => simp at hlen
      | cons a t =>
        refine ⟨a, hall a (by simp), t, (ih t).mpr ⟨by simpa using hlen, ?_⟩, rfl⟩
        intro c hc
        exact hall c (List.mem_cons_of_mem a hc)

/-- In the saturated registry every legal draw resolves to an active,
unexpiring row, so the generation loop's exit test never succeeds. -/
theorem get_url_saturated_isSome (now : Int) (s : String)
    (h : URLShortener.ValidDraw s) :
    ((Database.get_url now s saturatedState).1).isSome = true := by
  have hmem : saturatedRow s.data ∈ saturatedState.urls := by
    exact List.mem_map.mpr ⟨s.data, (mem_codesOfLen _ _).mpr ⟨h.1, h.2⟩, rfl⟩
  have hp : ((saturatedRow s.data).short_code == s
      && (saturatedRow s.data).is_active) = true := by
    have hs : (saturatedRow s.data).short_code = s := by
      cases s
      rfl
    simp [hs, saturatedRow]
  have hsome : (saturatedState.urls.find?
      (fun r => r.short_code == s && r.is_active)).isSome = true :=
    List.find?_isSome.mpr ⟨saturatedRow s.data, hmem, hp⟩
  unfold Database.get_url
  rcases hf : saturatedState.urls.find? (fun r => r.short_code == s && r.is_active)
    with _ | r
  · rw [hf] at hsome
    simp at hsome
  · have hr : r ∈ saturatedState.urls := List.mem_of_find?_eq_some hf
    obtain ⟨cs, -, rfl⟩ := List.mem_map.mp hr
    simp [hf, saturatedRow]

/-! Claim theorems. -/

/-- The condition under which the spec says `lookup(short_code)` returns
nothing: the code is missing, the row is inactive, or the row's
`expires_at` is set and lies before the current time (spec §4.2, stated
from the spec's words for comparison with `Database.get_url`). -/
def LookupMissSpec (now : Int) (c : String) (st : DBState) : Prop :=
  (∀ r ∈ st.urls, r.short_code ≠ c) ∨
  (∃ r ∈ st.urls, r.short_code = c ∧
    (r.is_active = false ∨ ∃ e, r.expires_at = some e ∧ e < now))

/-- C2: under the schema's code-uniqueness invariant, `get_url` returns
nothing exactly when the code is missing, the row is inactive, or the
row's expiration is set and lies strictly before the current time; and
the lookup never mutates the state (in particular an expired row keeps
`is_active = true`). -/
theorem lookup_none_iff (now : Int) (c : String) (st : DBState)
    (hu : UniqueCodes st) :
    ((Database.get_url now c st).1 = none ↔ LookupMissSpec now c st) ∧
    (Database.get_url now c st).2 = st := by
  refine ⟨?_, get_url_snd now c st⟩
  unfold Database.get_url LookupMissSpec
  rcases hf : st.urls.find? (fun r => r.short_code == c && r.is_active) with _ | r
  · rw [hf]
    have hall := List.find?_eq_none.mp hf
    constructor
    · intro _
      by_cases hex : ∃ r ∈ st.urls, r.short_code = c
      · obtain ⟨r, hr, hrc⟩ := hex
        have hna := hall r hr
        have hin : r.is_active = false := by
          cases hb : r.is_active
          · rfl
          · exact absurd (by simp [hrc, hb]) hna
        exact Or.inr ⟨r, hr, hrc, Or.inl hin⟩
      · left
        intro r hr hrc
        exact hex ⟨r, hr, hrc⟩
    · intro _
      rfl
  · have hp := List.find?_some hf
    have hm := List.mem_of_find?_eq_some hf
    simp only [Bool.and_eq_true, beq_iff_eq] at hp
    obtain ⟨hrc, hract⟩ := hp
    have huniq : ∀ r' ∈ st.urls, r'.short_code = c → r' = r := by
      intro r' hr' hc'
      exact row_eq_of_uniqueCodes hu hr' hm (hc'.trans hrc.symm)
    rcases he : r.expires_at with _ | e
    · simp only [hf, he]
      apply iff_of_false (by simp)
      rintro (hall | ⟨r', hr', hc', hbad⟩)
      · exact hall r hm hrc
      · have hr'r : r' = r := huniq r' hr' hc'
        subst hr'r
        rcases hbad with hin | ⟨e', hee, -⟩
        · rw [hract] at hin
          exact Bool.noConfusion hin
        · rw [he] at hee
          cases hee
    · by_cases hlt : now > e
      · simp only [hf, he, if_pos hlt]
        apply iff_of_true trivial
        exact Or.inr ⟨r, hm, hrc, Or.inr ⟨e, he, hlt⟩⟩
      · simp only [hf, he, if_neg hlt]
        apply iff_of_false (by simp)
        rintro (hall | ⟨r', hr', hc', hbad⟩)
        · exact hall r hm hrc
        · have hr'r : r' = r := huniq r' hr' hc'
          subst hr'r
          rcases hbad with hin | ⟨e', hee, hlt'⟩
          · rw [hract] at hin
            exact Bool.noConfusion hin
          · rw [he] at hee
            injection hee with heq
            subst heq
            exact hlt hlt'

/-- The empty database. -/
def emptyDB : DBState := { urls := [], clicks := [] }

/-- A one-row registry whose only link expired at time 5 but is still
marked active: the scenario of the spec's expiration-liveness test. -/
def expiredDB : DBState :=
  { urls := [{ short_code := "abc", original_url := "https://example.com/page",
               custom := false, created_at := 0, expires_at := some 5,
               is_active := true, notes := "", tags := "" }],
    clicks := [] }

theorem lookup_none_iff_witness :
    UniqueCodes expiredDB ∧
    (((Database.get_url 10 "abc" expiredDB).1 = none ↔
        LookupMissSpec 10 "abc" expiredDB) ∧
      (Database.get_url 10 "abc" expiredDB).2 = expiredDB) :=
  ⟨by decide, lookup_none_iff 10 "abc" expiredDB (by decide)⟩

/-- C6: when the code does not resolve to an active, unexpired link, the
redirect handler answers 404 with the fixed not-found message and leaves
the whole state — in particular the click ledger — unchanged. -/
theorem not_found_no_click (now : Int) (elapsed_ms : ℚ)
    (geo : Option Server.GeoInfo) (ua : Option Server.UAInfo)
    (ip code : String) (st : DBState)
    (h : (Database.get_url now code st).1 = none) :
    Server.handle_redirect now elapsed_ms geo ua ip code st =
      ({ status := 404, location := none, message := some EM_not_found }, st) := by
  unfold Server.handle_redirect
  simp only [h, get_url_snd]

theorem not_found_no_click_witness :
    (Database.get_url 0 "doesnotexist" emptyDB).1 = none ∧
    Server.handle_redirect 0 0 none none "127.0.0.1" "doesnotexist" emptyDB =
      ({ status := 404, location := none, message := some EM_not_found }, emptyDB) :=
  ⟨by decide,
   not_found_no_click 0 0 none none "127.0.0.1" "doesnotexist" emptyDB (by decide)⟩

/-- C7: a hard delete succeeds and cascades: afterwards no registry row
with the code remains (even in the inactive-inclusive listing), the
click count for the code is zero, and no click event referencing the
code survives in the ledger. -/
theorem hard_delete_cascade (st : DBState) (c : String) :
    (Database.hard_delete_url c st).1 = true ∧
    (∀ r ∈ (Database.get_all_urls true (Database.hard_delete_url c st).2).1,
      r.short_code ≠ c) ∧
    (Database.get_click_count c (Database.hard_delete_url c st).2).1 = 0 ∧
    (∀ ev ∈ (Database.hard_delete_url c st).2.clicks, ev.short_code ≠ c) := by
  refine ⟨rfl, ?_, ?_, ?_⟩
  · intro r hr
    unfold Database.get_all_urls at hr
    simp only [if_pos] at hr
    rw [mem_sortDescBy] at hr
    unfold Database.hard_delete_url at hr
    have := (List.mem_filter.mp hr).2
    simpa using this
  · show (Database.hard_delete_url c st).2.clicks.countP
      (fun ev => ev.short_code == c) = 0
    rw [List.countP_eq_zero]
    intro ev hev
    unfold Database.hard_delete_url at hev
    have := (List.mem_filter.mp hev).2
    simpa using this
  · intro ev hev
    unfold Database.hard_delete_url at hev
    have := (List.mem_filter.mp hev).2
    simpa using this

/-- C8: a soft delete succeeds, makes the code invisible to `get_url`
for every probe time, yet keeps the row (now inactive, all other fields
intact) in the inactive-inclusive listing and keeps the click ledger
untouched. -/
theorem soft_delete_visibility (st : DBState) (row : UrlRow)
    (hmem : row ∈ st.urls) :
    (Database.delete_url row.short_code st).1 = true ∧
    (∀ now, (Database.get_url now row.short_code
        (Database.delete_url row.short_code st).2).1 = none) ∧
    (∃ r ∈ (Database.get_all_urls true
        (Database.delete_url row.short_code st).2).1,
      r.short_code = row.short_code ∧ r.is_active = false ∧
      r.original_url = row.original_url ∧ r.created_at = row.created_at) ∧
    (Database.delete_url row.short_code st).2.clicks = st.clicks ∧
    (Database.get_clicks (some row.short_code) none none none
        (Database.delete_url row.short_code st).2).1 =
      (Database.get_clicks (some row.short_code) none none none st).1 := by
  refine ⟨rfl, ?_, ?_, rfl, rfl⟩
  · intro now
    unfold Database.get_url
    have hnone : (Database.delete_url row.short_code st).2.urls.find?
        (fun r => r.short_code == row.short_code && r.is_active) = none := by
      apply List.find?_eq_none.mpr
      intro x hx
      unfold Database.delete_url at hx
      obtain ⟨y, hy, rfl⟩ := List.mem_map.mp hx
      cases hyc : (y.short_code == row.short_code)
      · simp [hyc]
      · simp [hyc]
    rw [hnone]
  · refine ⟨{ row with is_active := false }, ?_, rfl, rfl, rfl, rfl⟩
    unfold Database.get_all_urls
    simp only [if_pos]
    rw [mem_sortDescBy]
    unfold Database.delete_url
    apply List.mem_map.mpr
    refine ⟨row, hmem, ?_⟩
    simp

/-- A one-row, one-click state used to witness the soft-delete claim. -/
def softDB : DBState :=
  { urls := [{ short_code := "abc", original_url := "https://example.com/page",
               custom := false, created_at := 3, expires_at := none,
               is_active := true, notes := "", tags := "" }],
    clicks := [{ short_code := "abc", clicked_at := 7, ip_address := "1.2.3.4",
                 country := "", city := "", browser := "", device := "",
                 response_time_ms := 2 }] }

theorem soft_delete_visibility_witness :
    softDB.urls.head? = some
      { short_code := "abc", original_url := "https://example.com/page",
        custom := false, created_at := 3, expires_at := none,
        is_active := true, notes := "", tags := "" } ∧
    ((Database.delete_url "abc" softDB).1 = true ∧
      (∀ now, (Database.get_url now "abc"
          (Database.delete_url "abc" softDB).2).1 = none) ∧
      (∃ r ∈ (Database.get_all_urls true
          (Database.delete_url "abc" softDB).2).1,
        r.short_code = "abc" ∧ r.is_active = false ∧
        r.original_url = "https://example.com/page" ∧ r.created_at = 3) ∧
      (Database.delete_url "abc" softDB).2.clicks = softDB.clicks ∧
      (Database.get_clicks (some "abc") none none none
          (Database.delete_url "abc" softDB).2).1 =
        (Database.get_clicks (some "abc") none none none softDB).1) :=
  ⟨by decide,
   soft_delete_visibility softDB
     { short_code := "abc", original_url := "https://example.com/page",
       custom := false, created_at := 3, expires_at := none,
       is_active := true, notes := "", tags := "" }
     (by decide)⟩

/-- C9: the statistics report exactly the number of active links, the
total number of recorded clicks, and their exact quotient as the average
(zero when there are no active links). -/
theorem aggregate_stats_correct (st : DBState) :
    (Database.get_statistics st).1.total_urls
        = (st.urls.filter (fun r => r.is_active)).length ∧
    (Database.get_statistics st).1.total_clicks = st.clicks.length ∧
    (Database.get_statistics st).1.avg_clicks_per_url =
      (if (st.urls.filter (fun r => r.is_active)).length = 0 then 0
       else (st.clicks.length : ℚ)
         / ((st.urls.filter (fun r => r.is_active)).length : ℚ)) := by
  have hN : st.urls.countP (fun r => r.is_active)
      = (st.urls.filter (fun r => r.is_active)).length :=
    List.countP_eq_length_filter _ _
  refine ⟨hN, rfl, ?_⟩
  show (if st.urls.countP (fun r => r.is_active) > 0
      then (st.clicks.length : ℚ) / (st.urls.countP (fun r => r.is_active) : ℚ)
      else 0) = _
  rw [hN]
  by_cases h : (st.urls.filter (fun r => r.is_active)).length = 0
  · simp [h]
  · simp [h, Nat.pos_of_ne_zero h]

/-- C10: the soft- and hard-delete booleans report only storage success:
they are true for every state and every code, whether or not a row with
that code exists. -/
theorem delete_reports_storage_success (st : DBState) (c : String) :
    (Database.delete_url c st).1 = true ∧
    (Database.hard_delete_url c st).1 = true :=
  ⟨rfl, rfl⟩

/-- C3 counterexample: updating a code that has no row still returns
true (the claim says such an update returns false). -/
theorem update_missing_code_counterexample :
    (Database.update_url "abc" (some "https://example.com/new") none none none
      emptyDB).1 = true := by
  decide

/-- C3 (amended): updating a missing code with at least one supplied
field returns true — the boolean reports only statement-execution
success, not row existence — and the registry state is unchanged. -/
theorem update_missing_code_true (st : DBState) (c : String)
    (original_url notes tags : Option String) (expires_at : Option Int)
    (hsome : original_url ≠ none ∨ notes ≠ none ∨ tags ≠ none ∨ expires_at ≠ none)
    (habs : ∀ r ∈ st.urls, r.short_code ≠ c) :
    Database.update_url c original_url notes tags expires_at st = (true, st) := by
  unfold Database.update_url
  have hcond : ¬ (original_url.isNone && notes.isNone && tags.isNone
      && expires_at.isNone) = true := by
    simp only [Bool.and_eq_true, Option.isNone_iff_eq_none]
    rintro ⟨⟨⟨h1, h2⟩, h3⟩, h4⟩
    rcases hsome with h | h | h | h <;> simp_all
  rw [if_neg hcond]
  have hmap : st.urls.map (fun r =>
      if r.short_code == c then
        Database.applyUpdates original_url notes tags expires_at r
      else r) = st.urls := by
    have hcongr : ∀ r ∈ st.urls, (if r.short_code == c then
        Database.applyUpdates original_url notes tags expires_at r
      else r) = r := by
      intro r hr
      have : (r.short_code == c) = false := by
        simp [habs r hr]
      simp [this]
    calc st.urls.map _ = st.urls.map id := List.map_congr_left hcongr
      _ = st.urls := List.map_id st.urls
  rw [hmap]

theorem update_missing_code_true_witness :
    ((some "https://example.com/new" : Option String) ≠ none ∨
      (none : Option String) ≠ none ∨ (none : Option String) ≠ none ∨
      (none : Option Int) ≠ none) ∧
    (∀ r ∈ emptyDB.urls, r.short_code ≠ "abc") ∧
    Database.update_url "abc" (some "https://example.com/new") none none none
      emptyDB = (true, emptyDB) :=
  ⟨by decide, by decide,
   update_missing_code_true emptyDB "abc" (some "https://example.com/new")
     none none none (by decide) (by decide)⟩

/-- On a successful lookup the redirect handler answers 301 with the
stored target as `Location` and appends exactly one click event for the
code to the ledger. -/
theorem handle_redirect_hit (now : Int) (elapsed_ms : ℚ)
    (geo : Option Server.GeoInfo) (ua : Option Server.UAInfo)
    (ip : String) (st : DBState) (row : UrlRow)
    (hget : Database.get_url now row.short_code st = (some row, st)) :
    ∃ ev : ClickRow,
      Server.handle_redirect now elapsed_ms geo ua ip row.short_code st
        = ({ status := 301, location := some row.original_url, message := none },
           { st with clicks := st.clicks ++ [ev] }) ∧
      ev.short_code = row.short_code := by
  unfold Server.handle_redirect Database.record_click
  rw [hget]
  exact ⟨_, rfl, rfl⟩

/-- C1: a GET request for `/code`, where `code` is a stored, active,
unexpired link's non-empty alphanumeric short code, responds 301 with a
`Location` header equal to the stored `original_url` verbatim, leaves
the registry unchanged, and appends exactly one new click event for that
code to the ledger (so its click count rises by exactly one). -/
theorem redirect_correct (now : Int) (elapsed_ms : ℚ)
    (geo : Option Server.GeoInfo) (ua : Option Server.UAInfo)
    (ip : String) (st : DBState) (row : UrlRow)
    (hu : UniqueCodes st) (hmem : row ∈ st.urls) (hact : row.is_active = true)
    (hexp : ∀ e, row.expires_at = some e → ¬ now > e)
    (hne : row.short_code ≠ "")
    (halnum : row.short_code.data.all Char.isAlphanum = true) :
    (Server.do_GET now elapsed_ms geo ua ip ("/" ++ row.short_code) st).1.status
      = 301 ∧
    (Server.do_GET now elapsed_ms geo ua ip ("/" ++ row.short_code) st).1.location
      = some row.original_url ∧
    (∃ ev : ClickRow,
      (Server.do_GET now elapsed_ms geo ua ip ("/" ++ row.short_code) st).2.clicks
        = st.clicks ++ [ev] ∧ ev.short_code = row.short_code) ∧
    (Server.do_GET now elapsed_ms geo ua ip ("/" ++ row.short_code) st).2.urls
      = st.urls ∧
    (Database.get_click_count row.short_code
        (Server.do_GET now elapsed_ms geo ua ip ("/" ++ row.short_code) st).2).1
      = (Database.get_click_count row.short_code st).1 + 1 := by
  have hpath : pySplitQueryHead (pyLstripSlash ("/" ++ row.short_code))
      = row.short_code := path_normalizes halnum
  have hidx : row.short_code ≠ "index.html" := by
    intro h
    rw [h] at halnum
    exact absurd halnum (by decide)
  have hredir : Server.do_GET now elapsed_ms geo ua ip ("/" ++ row.short_code) st
      = Server.handle_redirect now elapsed_ms geo ua ip row.short_code st := by
    unfold Server.do_GET
    rw [hpath]
    rw [if_neg (by rintro (h | h); exact hne h; exact hidx h)]
    simp [pyStartsWith_api_eq_false halnum]
  have hget : Database.get_url now row.short_code st = (some row, st) :=
    get_url_of_active_unexpired now st row hu hmem hact hexp
  obtain ⟨ev, hev, hevc⟩ :=
    handle_redirect_hit now elapsed_ms geo ua ip st row hget
  rw [hredir, hev]
  refine ⟨rfl, rfl, ⟨ev, rfl, hevc⟩, rfl, ?_⟩
  show (st.clicks ++ [ev]).countP (fun e => e.short_code == row.short_code)
      = st.clicks.countP (fun e => e.short_code == row.short_code) + 1
  rw [List.countP_append]
  simp [List.countP_cons, hevc]

/-- A one-row registry holding an active, unexpiring link, used to
witness the redirect claim. -/
def hitDB : DBState :=
  { urls := [{ short_code := "abc1", original_url := "https://example.com/page",
               custom := false, created_at := 0, expires_at := none,
               is_active := true, notes := "", tags := "" }],
    clicks := [] }

theorem redirect_correct_witness :
    (Server.do_GET 0 5 none none "1.2.3.4" "/abc1" hitDB).1.status = 301 ∧
    (Server.do_GET 0 5 none none "1.2.3.4" "/abc1" hitDB).1.location
      = some "https://example.com/page" ∧
    (∃ ev : ClickRow,
      (Server.do_GET 0 5 none none "1.2.3.4" "/abc1" hitDB).2.clicks
        = hitDB.clicks ++ [ev] ∧ ev.short_code = "abc1") ∧
    (Server.do_GET 0 5 none none "1.2.3.4" "/abc1" hitDB).2.urls = hitDB.urls ∧
    (Database.get_click_count "abc1"
        (Server.do_GET 0 5 none none "1.2.3.4" "/abc1" hitDB).2).1
      = (Database.get_click_count "abc1" hitDB).1 + 1 :=
  redirect_correct 0 5 none none "1.2.3.4" hitDB
    { short_code := "abc1", original_url := "https://example.com/page",
      custom := false, created_at := 0, expires_at := none,
      is_active := true, notes := "", tags := "" }
    (by decide) (by decide) rfl (fun e h => Option.noConfusion h)
    (by decide) (by decide)

/-- C4 counterexample: on a saturated code space the `while True`
generation loop never terminates and never reports exhaustion — for
every retry bound it has produced neither a code nor an error (the
claim says exhaustion is reported as an error condition instead of
looping forever). -/
theorem generator_loops_forever_when_saturated :
    genLoopsForever (fun _ => "aaaaaa") 0 saturatedState := by
  intro fuel
  induction fuel with
  | zero =>
    intro i
    rfl
  | succ f ih =>
    intro i
    have hsome : ((Database.get_url 0 "aaaaaa" saturatedState).1).isSome = true :=
      get_url_saturated_isSome 0 "aaaaaa" (by decide)
    unfold URLShortener.generate_short_code
    rcases hg : (Database.get_url 0 "aaaaaa" saturatedState).1 with _ | r
    · rw [hg] at hsome
      simp at hsome
    · simp only [hg]
      exact ih (i + 1)

/-- C4 (amended): whenever some candidate within the retry horizon is
not resolvable by `get_url`, the generator terminates and returns a
candidate that is a fixed-length draw from the configured alphabet and
is not present as an active, unexpired ShortLink; on a saturated code
space it loops forever instead of reporting exhaustion (see the
counterexample). -/
theorem generate_short_code_success (now : Int) (st : DBState)
    (stream : Nat → String) (fuel i j : Nat)
    (hvalid : ∀ k, URLShortener.ValidDraw (stream k))
    (hj : j < fuel)
    (hfree : (Database.get_url now (stream (i + j)) st).1 = none) :
    ∃ c, URLShortener.generate_short_code fuel stream i now st = some c ∧
      URLShortener.ValidDraw c ∧ (Database.get_url now c st).1 = none := by
  induction fuel generalizing i j with
  | zero => exact absurd hj (Nat.not_lt_zero j)
  | succ f ih =>
    unfold URLShortener.generate_short_code
    rcases hg : (Database.get_url now (stream i) st).1 with _ | r
    · refine ⟨stream i, ?_, hvalid i, hg⟩
      simp only [hg]
    · simp only [hg]
      cases j with
      | zero =>
        rw [Nat.add_zero] at hfree
        rw [hfree] at hg
        cases hg
      | succ j' =>
        have hj' : j' < f := Nat.lt_of_succ_lt_succ hj
        have hfree' : (Database.get_url now (stream (i + 1 + j')) st).1 = none := by
          have : i + 1 + j' = i + (j' + 1) := by omega
          rw [this]
          exact hfree
        exact ih (i + 1) j' hj' hfree'

theorem generate_short_code_success_witness :
    (∀ k, URLShortener.ValidDraw ((fun _ : Nat => "bbbbbb") k)) ∧ 0 < 1 ∧
    (Database.get_url 0 ((fun _ : Nat => "bbbbbb") (0 + 0)) expiredDB).1 = none ∧
    (∃ c, URLShortener.generate_short_code 1 (fun _ : Nat => "bbbbbb") 0 0 expiredDB
        = some c ∧
      URLShortener.ValidDraw c ∧ (Database.get_url 0 c expiredDB).1 = none) :=
  ⟨by intro k; show URLShortener.ValidDraw "bbbbbb"; decide, by decide, by decide,
   generate_short_code_success 0 expiredDB (fun _ : Nat => "bbbbbb") 1 0 0
     (by intro k; show URLShortener.ValidDraw "bbbbbb"; decide)
     (by decide) (by decide)⟩

/-- A registry whose only row holds code `"abc"` but is soft-deleted
(inactive): invisible to `get_url` yet still protected by the `UNIQUE`
constraint. -/
def inactiveDB : DBState :=
  { urls := [{ short_code := "abc", original_url := "https://example.com/old",
               custom := true, created_at := 0, expires_at := none,
               is_active := false, notes := "", tags := "" }],
    clicks := [] }

/-- C5 counterexample: when the row holding the requested custom code is
merely present but inactive, the second create does not fail with the
CustomCodeTaken error — the taken-check misses the row, the insert trips
the UNIQUE constraint, and the caller gets the generic database error. -/
theorem custom_code_taken_counterexample :
    URLShortener.shorten_url 100 true true true 1 (fun _ : Nat => "zzzzzz")
        "https://example.com/page" (some "abc") none "" "" true inactiveDB
      = some (URLShortener.errResult EM_database_error, inactiveDB) ∧
    EM_database_error ≠ EM_custom_taken := by
  exact ⟨by decide, by decide⟩

/-- C5 (amended): when an **active, unexpired** link already holds the
requested custom code (and the URL passes the blacklist and
reachability gates), create fails with exactly the CustomCodeTaken
error and the state is returned unchanged — no row is inserted and the
existing link is unaffected; in particular the second of two
back-to-back creates with the same custom code fails this way.  When
the code is held only by an inactive or expired row, the failure is the
generic database error instead (see the counterexample). -/
theorem custom_code_taken (now : Int) (headOk : Bool) (fuel : Nat)
    (stream : Nat → String) (u : String) (ed : Option Int)
    (notes tags : String) (validate : Bool) (st : DBState) (row : UrlRow)
    (hu : UniqueCodes st) (hmem : row ∈ st.urls) (hact : row.is_active = true)
    (hexp : ∀ e, row.expires_at = some e → ¬ now > e)
    (hbl : Utils.is_blacklisted u none = false)
    (hlen : row.short_code.length ≤ MAX_CUSTOM_LENGTH)
    (halnum : pyIsAlnum row.short_code = true) :
    URLShortener.shorten_url now headOk true true fuel stream u
        (some row.short_code) ed notes tags validate st
      = some (URLShortener.errResult EM_custom_taken, st) := by
  have hget : Database.get_url now row.short_code st = (some row, st) :=
    get_url_of_active_unexpired now st row hu hmem hact hexp
  unfold URLShortener.shorten_url
  simp only [Utils.isTruthyDict, Bool.not_true, Bool.false_eq_true, if_false,
    hbl, Utils.check_dns_resolution, Utils.check_url_active, Bool.and_false,
    Bool.not_false, if_neg (Nat.not_lt.mpr hlen), halnum, hget,
    Option.isSome_some, if_true]

/-- A registry whose only row holds code `"abc"` as an active,
unexpiring custom link. -/
def activeDB : DBState :=
  { urls := [{ short_code := "abc", original_url := "https://example.com/page",
               custom := true, created_at := 0, expires_at := none,
               is_active := true, notes := "", tags := "" }],
    clicks := [] }

theorem custom_code_taken_witness :
    URLShortener.shorten_url 100 true true true 1 (fun _ : Nat => "zzzzzz")
        "https://example.com/page" (some "abc") none "" "" true activeDB
      = some (URLShortener.errResult EM_custom_taken, activeDB) :=
  custom_code_taken 100 true 1 (fun _ : Nat => "zzzzzz")
    "https://example.com/page" none "" "" true activeDB
    { short_code := "abc", original_url := "https://example.com/page",
      custom := true, created_at := 0, expires_at := none,
      is_active := true, notes := "", tags := "" }
    (by decide) (by decide) rfl (fun e h => Option.noConfusion h)
    (by decide) (by decide) (by decide)
